import Mathlib

/-!
Verification of `GenomicConsensus/variants.py`: the `Variant` data model and
the collection operations `filterVariants` and `annotateVariants`.

Python values are embedded as follows: Python strings become `String`,
Python ints become `Int`, a parameter defaulting to `None` becomes an
`Option`, and code that can raise becomes `Except String`.
-/

/-- The `Variant` record, mirroring the attributes stored by
`Variant.__init__` in `variants.py`. -/
structure Variant where
  refId : String
  refStart : Int
  refEnd : Int
  refSeq : String
  readSeq1 : String
  readSeq2 : Option String
  confidence : Option Int
  coverage : Option Int
  frequency1 : Option Int
  frequency2 : Option Int
  annotations : Option (List (String × String))
  refPrev : String
  readPrev : String
deriving Repr, DecidableEq

/-- `Variant.__init__`: raises `ValueError` when `refPrev` or `readPrev`
is `None`, checked in that order; otherwise stores every argument as given. -/
def mkVariant (refId : String) (refStart refEnd : Int) (refSeq readSeq1 : String)
    (readSeq2 : Option String) (confidence coverage frequency1 frequency2 : Option Int)
    (annotations : Option (List (String × String)))
    (refPrev readPrev : Option String) : Except String Variant :=
  match refPrev with
  | none => .error "missing refPrev!"
  | some rp =>
    match readPrev with
    | none => .error "missing readPrev!"
    | some dp =>
      .ok { refId := refId, refStart := refStart, refEnd := refEnd,
            refSeq := refSeq, readSeq1 := readSeq1, readSeq2 := readSeq2,
            confidence := confidence, coverage := coverage,
            frequency1 := frequency1, frequency2 := frequency2,
            annotations := annotations, refPrev := rp, readPrev := dp }

/-- `Variant.isHeterozygous`: `self.readSeq2 != None`. -/
def Variant.isHeterozygous (v : Variant) : Bool :=
  v.readSeq2.isSome

/-- `Variant.variantType`.  Python computes
`l2 = len(self.readSeq2) if self.readSeq2 else None`, so both `None` and
the empty string (both falsy) give `l2 = None`. -/
def Variant.variantType (v : Variant) : String :=
  let lr := v.refSeq.length
  let l1 := v.readSeq1.length
  let l2 : Option Nat :=
    match v.readSeq2 with
    | some s => if s = "" then none else some s.length
    | none => none
  if lr = 0 then "Insertion"
  else if l1 = 0 ∨ l2 = some 0 then "Deletion"
  else if l1 = lr ∧ (l2 = none ∨ l2 = some lr) then "Substitution"
  else "Variant"

/-- `Variant.__str__`: `"%s@%s:%d-%d %s -> %s"` with falsy (empty) sequences
rendered as `"."` and heterozygous read alleles joined by `"/"`. -/
def Variant.str (v : Variant) : String :=
  let refSeq_ := if v.refSeq = "" then "." else v.refSeq
  let readAlleles :=
    if v.isHeterozygous then
      (if v.readSeq1 = "" then "." else v.readSeq1) ++ "/" ++
        (let s2 := v.readSeq2.getD ""
         if s2 = "" then "." else s2)
    else
      if v.readSeq1 = "" then "." else v.readSeq1
  v.variantType ++ "@" ++ v.refId ++ ":" ++ toString v.refStart ++ "-" ++
    toString v.refEnd ++ " " ++ refSeq_ ++ " -> " ++ readAlleles

/-- `Variant.__repr__`: `return str(self)`. -/
def Variant.reprStr (v : Variant) : String :=
  v.str

/-- `Variant.__lt__`: CPython tuple comparison of
`(refId, refStart, refEnd, readSeq1)` — scan for the first unequal
component and compare it with `<`. -/
def Variant.lt (a b : Variant) : Bool :=
  if a.refId ≠ b.refId then decide (a.refId < b.refId)
  else if a.refStart ≠ b.refStart then decide (a.refStart < b.refStart)
  else if a.refEnd ≠ b.refEnd then decide (a.refEnd < b.refEnd)
  else decide (a.readSeq1 < b.readSeq1)

/-- `Variant.annotate`: lazily initialize `annotations` to `[]`, then append
`(key, value)`. -/
def Variant.annotate (v : Variant) (key value : String) : Variant :=
  match v.annotations with
  | none => { v with annotations := some [(key, value)] }
  | some l => { v with annotations := some (l ++ [(key, value)]) }

/-- Comparison `x >= y` where `x` may be Python `None`; comparing `None`
with an int raises `TypeError` in Python 3. -/
def optGe (x : Option Int) (y : Int) : Except String Bool :=
  match x with
  | none => .error "TypeError: unorderable types"
  | some n => .ok (decide (n ≥ y))

/-- `filterVariants`: list comprehension keeping variants with
`coverage >= minCoverage and confidence >= minConfidence`; Python `and`
short-circuits, so `confidence` is only compared when the coverage test
passes. -/
def filterVariants (minCoverage minConfidence : Int) :
    List Variant → Except String (List Variant)
  | [] => .ok []
  | v :: rest => do
    let c ← optGe v.coverage minCoverage
    let keep ← if c then optGe v.confidence minConfidence else pure false
    let tail ← filterVariants minCoverage minConfidence rest
    pure (if keep then v :: tail else tail)

/-- An alignment record: the only field `annotateVariants` reads is
`rowNumber`. -/
structure Aln where
  rowNumber : Int
deriving Repr, DecidableEq

/-- `annotateVariants`: annotate every variant with
`("rows", ",".join(str(a.rowNumber) for a in alns))`.  The Python version
mutates in place; here the updated list is returned. -/
def annotateVariants (variants : List Variant) (alns : List Aln) : List Variant :=
  variants.map (fun v =>
    v.annotate "rows" (String.intercalate "," (alns.map (fun a => toString a.rowNumber))))

/-! ### Helper lemmas and concrete examples -/

theorem string_eq_empty_of_length_eq_zero {s : String} (h : s.length = 0) : s = "" := by
  cases s with
  | mk data =>
    simp [String.length] at h
    simp [h]

/-- Appending the pairs of `ps` one call at a time via `Variant.annotate`. -/
def annotateMany (v : Variant) (ps : List (String × String)) : Variant :=
  ps.foldl (fun w p => w.annotate p.1 p.2) v

theorem annotate_annotations (v : Variant) (k val : String) :
    (v.annotate k val).annotations = some (v.annotations.getD [] ++ [(k, val)]) := by
  cases h : v.annotations <;> simp [Variant.annotate, h]

theorem annotate_eq_set (v : Variant) (k val : String) :
    v.annotate k val = { v with annotations := some (v.annotations.getD [] ++ [(k, val)]) } := by
  cases h : v.annotations <;> simp [Variant.annotate, h]

theorem annotateMany_some (ps : List (String × String)) :
    ∀ (v : Variant) (l : List (String × String)), v.annotations = some l →
      (annotateMany v ps).annotations = some (l ++ ps) := by
  induction ps with
  | nil => intro v l h; simpa [annotateMany] using h
  | cons p rest ih =>
    intro v l h
    have hstep : (v.annotate p.1 p.2).annotations = some (l ++ [p]) := by
      simp [Variant.annotate, h]
    have := ih (v.annotate p.1 p.2) (l ++ [p]) hstep
    simpa [annotateMany, List.append_assoc] using this

/-- A concrete homozygous variant used in several examples. -/
def exVar : Variant :=
  { refId := "chr1", refStart := 10, refEnd := 11, refSeq := "A", readSeq1 := "T",
    readSeq2 := none, confidence := none, coverage := none, frequency1 := none,
    frequency2 := none, annotations := none, refPrev := "C", readPrev := "C" }

/-- Concrete heterozygous variant with an empty second allele. -/
def exEmptyAllele2 : Variant :=
  { exVar with readSeq2 := some "" }

/-! ### C9: isHeterozygous iff readSeq2 non-null -/

/-- C9: for every constructed Variant, `isHeterozygous` is true if and only
if `readSeq2` is not null, including when `readSeq2` is the empty string. -/
theorem isHeterozygous_iff_readSeq2_ne_none :
    (∀ v : Variant, v.isHeterozygous = true ↔ v.readSeq2 ≠ none) ∧
      Variant.isHeterozygous { exVar with readSeq2 := some "" } = true := by
  constructor
  · intro v
    cases h : v.readSeq2 <;> simp [Variant.isHeterozygous, h]
  · rfl

/-! ### C10: empty readSeq2 is heterozygous yet classified as if absent -/

/-- C10: a Variant with `readSeq2 = some ""` has `isHeterozygous = true`,
yet `variantType` treats the second-allele length as absent rather than 0:
with `len(readSeq1) == len(refSeq) > 0` it is classified "Substitution",
not "Deletion". -/
theorem emptyReadSeq2_heterozygous_substitution (v : Variant)
    (h2 : v.readSeq2 = some "") (hlr : v.refSeq.length ≠ 0)
    (h1 : v.readSeq1.length = v.refSeq.length) :
    v.isHeterozygous = true ∧ v.variantType = "Substitution" := by
  refine ⟨by simp [Variant.isHeterozygous, h2], ?_⟩
  have hl1 : ¬ (v.readSeq1.length = 0 ∨ (none : Option Nat) = some 0) := by
    simp [h1, hlr]
  simp [Variant.variantType, h2, hlr, h1]

theorem emptyReadSeq2_heterozygous_substitution_witness :
    exEmptyAllele2.isHeterozygous = true ∧ exEmptyAllele2.variantType = "Substitution" :=
  emptyReadSeq2_heterozygous_substitution exEmptyAllele2 rfl (by decide) (by decide)

/-! ### C5: annotate is cumulative -/

/-- C5: `annotate` is cumulative: starting from `annotations = none`, N
calls yield a sequence holding exactly the N (key, value) pairs in call
order; starting from an existing sequence, calls append in order with no
deduplication or replacement. -/
theorem annotate_cumulative (v : Variant) (ps : List (String × String)) :
    (v.annotations = none → ps ≠ [] → (annotateMany v ps).annotations = some ps) ∧
      (∀ l, v.annotations = some l → (annotateMany v ps).annotations = some (l ++ ps)) := by
  refine ⟨?_, fun l h => annotateMany_some ps v l h⟩
  intro hnone hne
  cases ps with
  | nil => exact absurd rfl hne
  | cons p rest =>
    have hstep : (v.annotate p.1 p.2).annotations = some [p] := by
      simp [Variant.annotate, hnone]
    have := annotateMany_some rest (v.annotate p.1 p.2) [p] hstep
    simpa [annotateMany] using this

theorem annotate_cumulative_witness :
    exVar.annotations = none ∧ ([("a", "1"), ("a", "1"), ("b", "2")] : List (String × String)) ≠ [] ∧
      (annotateMany exVar [("a", "1"), ("a", "1"), ("b", "2")]).annotations =
        some [("a", "1"), ("a", "1"), ("b", "2")] :=
  ⟨rfl, by decide,
    (annotate_cumulative exVar [("a", "1"), ("a", "1"), ("b", "2")]).1 rfl (by decide)⟩

/-! ### C3: annotateVariants annotates every variant with the full row list -/

/-- The comma-joined row numbers of the whole alignment collection. -/
def joinedRows (alns : List Aln) : String :=
  String.intercalate "," (alns.map (fun a => toString a.rowNumber))

/-- C3: `annotateVariants` appends to each variant, in iteration order,
exactly one annotation `("rows", s)` where `s` is the comma-joined rendering
of the `rowNumber` of every alignment (no per-variant filtering); an empty
variants list is a no-op.  Concretely, two variants with two alignments
of row numbers 3 and 7 each gain the annotation `("rows", "3,7")`. -/
theorem annotateVariants_spec :
    (∀ (variants : List Variant) (alns : List Aln),
      annotateVariants variants alns =
        variants.map (fun v =>
          { v with annotations := some (v.annotations.getD [] ++ [("rows", joinedRows alns)]) })) ∧
      (∀ alns : List Aln, annotateVariants [] alns = []) ∧
      annotateVariants [exVar, exEmptyAllele2] [⟨3⟩, ⟨7⟩] =
        [{ exVar with annotations := some [("rows", "3,7")] },
         { exEmptyAllele2 with annotations := some [("rows", "3,7")] }] := by
  refine ⟨?_, fun alns => rfl, by decide⟩
  intro variants alns
  unfold annotateVariants joinedRows
  exact List.map_congr_left (fun v _ => annotate_eq_set v _ _)

/-! ### C4: construction fails exactly on missing context strings -/

/-- C4: Variant construction fails exactly when `refPrev` is null or
`readPrev` is null; with both supplied it succeeds with no other
validation, storing every field as given. -/
theorem mkVariant_spec (refId : String) (refStart refEnd : Int)
    (refSeq readSeq1 : String) (readSeq2 : Option String)
    (confidence coverage frequency1 frequency2 : Option Int)
    (annotations : Option (List (String × String))) (refPrev readPrev : Option String) :
    ((∃ v, mkVariant refId refStart refEnd refSeq readSeq1 readSeq2 confidence coverage
        frequency1 frequency2 annotations refPrev readPrev = .ok v) ↔
      refPrev ≠ none ∧ readPrev ≠ none) ∧
    (∀ rp dp, refPrev = some rp → readPrev = some dp →
      mkVariant refId refStart refEnd refSeq readSeq1 readSeq2 confidence coverage
          frequency1 frequency2 annotations refPrev readPrev =
        .ok { refId := refId, refStart := refStart, refEnd := refEnd, refSeq := refSeq,
              readSeq1 := readSeq1, readSeq2 := readSeq2, confidence := confidence,
              coverage := coverage, frequency1 := frequency1, frequency2 := frequency2,
              annotations := annotations, refPrev := rp, readPrev := dp }) := by
  constructor
  · cases refPrev with
    | none => simp [mkVariant]
    | some rp => cases readPrev with
      | none => simp [mkVariant]
      | some dp => simp [mkVariant]
  · intro rp dp hrp hdp
    subst hrp; subst hdp
    rfl

theorem mkVariant_spec_witness :
    mkVariant "chr1" 10 11 "A" "T" none none none none none none (some "C") (some "G") =
      .ok { refId := "chr1", refStart := 10, refEnd := 11, refSeq := "A", readSeq1 := "T",
            readSeq2 := none, confidence := none, coverage := none, frequency1 := none,
            frequency2 := none, annotations := none, refPrev := "C", readPrev := "G" } :=
  (mkVariant_spec "chr1" 10 11 "A" "T" none none none none none none
    (some "C") (some "G")).2 "C" "G" rfl rfl

/-! ### C2: filterVariants keeps exactly the qualifying variants, in order -/

/-- C2: on variants whose `coverage` and `confidence` are all non-null,
`filterVariants` returns exactly the variants with
`coverage >= minCoverage` and `confidence >= minConfidence`, as the
order-preserving `List.filter` of the input. -/
theorem filterVariants_keeps (minCov minConf : Int) :
    ∀ vs : List Variant, (∀ v ∈ vs, v.coverage ≠ none ∧ v.confidence ≠ none) →
      filterVariants minCov minConf vs =
        .ok (vs.filter (fun v =>
          decide (v.coverage.getD 0 ≥ minCov) && decide (v.confidence.getD 0 ≥ minConf))) := by
  intro vs
  induction vs with
  | nil => intro _; rfl
  | cons v rest ih =>
    intro h
    obtain ⟨hcov, hconf⟩ := h v (List.mem_cons_self v rest)
    obtain ⟨c, hc⟩ := Option.ne_none_iff_exists'.mp hcov
    obtain ⟨k, hk⟩ := Option.ne_none_iff_exists'.mp hconf
    have htail := ih (fun w hw => h w (List.mem_cons_of_mem v hw))
    by_cases h1 : minCov ≤ c <;> by_cases h2 : minConf ≤ k <;>
      simp [filterVariants, optGe, hc, hk, htail, h1, h2, bind, Except.bind, pure, Except.pure]

/-- The four variants of the spec example, with
(coverage, confidence) = (10,40), (3,50), (5,29), (5,30). -/
def exFilterList : List Variant :=
  [{ exVar with coverage := some 10, confidence := some 40 },
   { exVar with coverage := some 3, confidence := some 50 },
   { exVar with coverage := some 5, confidence := some 29 },
   { exVar with coverage := some 5, confidence := some 30 }]

theorem filterVariants_keeps_witness :
    (∀ v ∈ exFilterList, v.coverage ≠ none ∧ v.confidence ≠ none) ∧
      filterVariants 5 30 exFilterList =
        .ok [{ exVar with coverage := some 10, confidence := some 40 },
             { exVar with coverage := some 5, confidence := some 30 }] := by
  refine ⟨by decide, ?_⟩
  rw [filterVariants_keeps 5 30 exFilterList (by decide)]
  rfl

/-! ### C8: structural equality over all stored attributes -/

/-- Modelled from the spec: `CommonEqualityMixin` is defined in
`GenomicConsensus/utils.py`, which is not under `src/`; per the spec it
supplies structural equality — "two Variant instances are equal iff all
stored attributes are pairwise equal (not just identity)". -/
def variantEq (a b : Variant) : Bool :=
  decide (a.refId = b.refId) && decide (a.refStart = b.refStart) &&
  decide (a.refEnd = b.refEnd) && decide (a.refSeq = b.refSeq) &&
  decide (a.readSeq1 = b.readSeq1) && decide (a.readSeq2 = b.readSeq2) &&
  decide (a.confidence = b.confidence) && decide (a.coverage = b.coverage) &&
  decide (a.frequency1 = b.frequency1) && decide (a.frequency2 = b.frequency2) &&
  decide (a.annotations = b.annotations) && decide (a.refPrev = b.refPrev) &&
  decide (a.readPrev = b.readPrev)

/-- C8: Variant equality is structural — it holds iff all thirteen stored
attributes are pairwise equal, which for the record type coincides with
propositional equality; a concrete pair differing in one field compares
unequal. -/
theorem variantEq_structural :
    (∀ a b : Variant,
      (variantEq a b = true ↔
        (a.refId = b.refId ∧ a.refStart = b.refStart ∧ a.refEnd = b.refEnd ∧
         a.refSeq = b.refSeq ∧ a.readSeq1 = b.readSeq1 ∧ a.readSeq2 = b.readSeq2 ∧
         a.confidence = b.confidence ∧ a.coverage = b.coverage ∧
         a.frequency1 = b.frequency1 ∧ a.frequency2 = b.frequency2 ∧
         a.annotations = b.annotations ∧ a.refPrev = b.refPrev ∧
         a.readPrev = b.readPrev)) ∧
      (variantEq a b = true ↔ a = b)) ∧
    variantEq exVar exVar = true ∧ variantEq exVar exEmptyAllele2 = false := by
  refine ⟨?_, by decide, by decide⟩
  intro a b
  have h1 : variantEq a b = true ↔
      (a.refId = b.refId ∧ a.refStart = b.refStart ∧ a.refEnd = b.refEnd ∧
       a.refSeq = b.refSeq ∧ a.readSeq1 = b.readSeq1 ∧ a.readSeq2 = b.readSeq2 ∧
       a.confidence = b.confidence ∧ a.coverage = b.coverage ∧
       a.frequency1 = b.frequency1 ∧ a.frequency2 = b.frequency2 ∧
       a.annotations = b.annotations ∧ a.refPrev = b.refPrev ∧
       a.readPrev = b.readPrev) := by
    simp [variantEq, and_assoc]
  refine ⟨h1, h1.trans ?_⟩
  cases a; cases b
  simp [Variant.mk.injEq]

/-! ### C6: textual rendering -/

/-- The heterozygous substitution of the spec's rendering example. -/
def exHetSub : Variant :=
  { exVar with readSeq2 := some "G" }

/-- C6: display and debug rendering coincide, and the string is
`"<Type>@<refId>:<refStart>-<refEnd> <refAllele> -> <readAlleles>"` with an
empty `refSeq` rendered as ".", an empty `readSeq1`/`readSeq2` rendered as
".", and heterozygous read alleles joined by "/"; the spec's heterozygous
substitution example renders exactly as
`"Substitution@chr1:10-11 A -> T/G"`. -/
theorem variant_str_spec :
    (∀ v : Variant, v.reprStr = v.str) ∧
    (∀ v : Variant, v.str =
      v.variantType ++ "@" ++ v.refId ++ ":" ++ toString v.refStart ++ "-" ++
        toString v.refEnd ++ " " ++ (if v.refSeq = "" then "." else v.refSeq) ++ " -> " ++
        (match v.readSeq2 with
         | none => if v.readSeq1 = "" then "." else v.readSeq1
         | some s2 => (if v.readSeq1 = "" then "." else v.readSeq1) ++ "/" ++
             (if s2 = "" then "." else s2))) ∧
    exHetSub.str = "Substitution@chr1:10-11 A -> T/G" := by
  refine ⟨fun v => rfl, ?_, by decide⟩
  intro v
  cases h : v.readSeq2 with
  | none => simp [Variant.str, Variant.isHeterozygous, h]
  | some s2 => simp [Variant.str, Variant.isHeterozygous, h]

/-! ### C1: variantType classification -/

/-- The classifier exactly as the claim words it: the second-allele length
is `len(readSeq2)` whenever the variant is heterozygous (readSeq2 non-null),
so a heterozygous variant with `len(readSeq2) == 0` would be a Deletion. -/
def claimedVariantType (v : Variant) : String :=
  if v.refSeq.length = 0 then "Insertion"
  else if v.readSeq1.length = 0 ∨ (v.isHeterozygous ∧ (v.readSeq2.getD "").length = 0) then
    "Deletion"
  else if v.readSeq1.length = v.refSeq.length ∧
      (v.isHeterozygous = false ∨ (v.readSeq2.getD "").length = v.refSeq.length) then
    "Substitution"
  else "Variant"

/-- C1 counterexample: on the heterozygous variant with `refSeq = "A"`,
`readSeq1 = "T"`, `readSeq2 = ""` the claim's classifier says "Deletion",
but the code computes `l2 = None` for a falsy (empty) `readSeq2` and
returns "Substitution". -/
theorem claimedVariantType_counterexample :
    exEmptyAllele2.isHeterozygous = true ∧ exEmptyAllele2.readSeq2 = some "" ∧
      claimedVariantType exEmptyAllele2 = "Deletion" ∧
      exEmptyAllele2.variantType = "Substitution" ∧
      claimedVariantType exEmptyAllele2 ≠ exEmptyAllele2.variantType := by
  decide

/-- The classifier as the amended claim words it: an empty `readSeq2` is
treated as absent (Python truthiness), so Deletion requires
`len(readSeq1) == 0`, and Substitution accepts a null or empty `readSeq2`
as well as one matching the reference length. -/
def amendedVariantType (v : Variant) : String :=
  if v.refSeq.length = 0 then "Insertion"
  else if v.readSeq1.length = 0 then "Deletion"
  else if v.readSeq1.length = v.refSeq.length ∧
      (v.readSeq2 = none ∨ v.readSeq2 = some "" ∨
        (v.readSeq2.getD "").length = v.refSeq.length) then
    "Substitution"
  else "Variant"

/-- C1 (amended): `variantType` classifies in strict priority order:
`len(refSeq) == 0` → "Insertion"; else `len(readSeq1) == 0` → "Deletion";
else `len(readSeq1) == len(refSeq)` with `readSeq2` null, empty, or of
reference length → "Substitution"; otherwise "Variant".  An empty
`readSeq2` is treated as absent, never as a zero-length second allele. -/
theorem variantType_spec (v : Variant) : v.variantType = amendedVariantType v := by
  cases h : v.readSeq2 with
  | none => simp [Variant.variantType, amendedVariantType, h]
  | some s2 =>
    by_cases hs : s2 = ""
    · simp [Variant.variantType, amendedVariantType, h, hs]
    · have hlen : s2.length ≠ 0 := fun hz => hs (string_eq_empty_of_length_eq_zero hz)
      simp [Variant.variantType, amendedVariantType, h, hs, hlen, Option.getD]

/-! ### C7: ordering by (refId, refStart, refEnd, readSeq1) -/

/-- Strict lexicographic comparison of the tuples
`(refId, refStart, refEnd, readSeq1)`, stated from the spec's words. -/
def keyLt (a b : Variant) : Prop :=
  a.refId < b.refId ∨ (a.refId = b.refId ∧
    (a.refStart < b.refStart ∨ (a.refStart = b.refStart ∧
      (a.refEnd < b.refEnd ∨ (a.refEnd = b.refEnd ∧ a.readSeq1 < b.readSeq1)))))

/-- Ascending (non-strict) order on the tuples
`(refId, refStart, refEnd, readSeq1)`. -/
def keyLe (a b : Variant) : Prop :=
  keyLt a b ∨ (a.refId = b.refId ∧ a.refStart = b.refStart ∧
    a.refEnd = b.refEnd ∧ a.readSeq1 = b.readSeq1)

/-- The sort key as a lexicographic product, giving access to the order
instances of `Lex`. -/
def sortKey (v : Variant) : Lex (String × Lex (Int × Lex (Int × String))) :=
  toLex (v.refId, toLex (v.refStart, toLex (v.refEnd, v.readSeq1)))

theorem keyLt_iff_lex (a b : Variant) : keyLt a b ↔ sortKey a < sortKey b := by
  simp [keyLt, sortKey, Prod.Lex.lt_iff]

theorem lt_iff_keyLt (a b : Variant) : Variant.lt a b = true ↔ keyLt a b := by
  unfold Variant.lt keyLt
  by_cases h1 : a.refId = b.refId
  · by_cases h2 : a.refStart = b.refStart
    · by_cases h3 : a.refEnd = b.refEnd
      · simp [h1, h2, h3]
      · simp [h1, h2, h3]
    · simp [h1, h2]
  · simp [h1]

theorem keyLe_iff_lex (a b : Variant) : keyLe a b ↔ sortKey a ≤ sortKey b := by
  rw [le_iff_lt_or_eq]
  simp [keyLe, keyLt_iff_lex, sortKey, toLex_inj, Prod.mk.injEq]

/-- `sorted(variants)` uses `__lt__`; the matching non-strict relation. -/
def vble (a b : Variant) : Prop :=
  Variant.lt b a = false

instance : DecidableRel vble :=
  fun a b => inferInstanceAs (Decidable (Variant.lt b a = false))

/-- Sorting a list of Variants with the order induced by `Variant.lt`. -/
def sortVariants (l : List Variant) : List Variant :=
  List.insertionSort vble l

theorem vble_iff (a b : Variant) : vble a b ↔ sortKey a ≤ sortKey b := by
  unfold vble
  rw [← Bool.not_eq_true, lt_iff_keyLt, keyLt_iff_lex, not_lt]

/-- C7: `Variant.lt` is exactly the strict lexicographic comparison of the
tuples `(refId, refStart, refEnd, readSeq1)`, and sorting any sequence of
Variants with the induced order yields a permutation of the input that is
sorted consistently with ascending `(refId, refStart, refEnd, readSeq1)`. -/
theorem variant_lt_sorts :
    (∀ a b : Variant, Variant.lt a b = true ↔ keyLt a b) ∧
    (∀ l : List Variant, List.Perm (sortVariants l) l ∧ List.Sorted keyLe (sortVariants l)) := by
  refine ⟨lt_iff_keyLt, fun l => ⟨List.perm_insertionSort vble l, ?_⟩⟩
  haveI htot : IsTotal Variant vble := ⟨fun a b => by
    rcases le_total (sortKey a) (sortKey b) with h | h
    · exact Or.inl ((vble_iff a b).mpr h)
    · exact Or.inr ((vble_iff b a).mpr h)⟩
  haveI htrans : IsTrans Variant vble := ⟨fun a b c hab hbc =>
    (vble_iff a c).mpr (le_trans ((vble_iff a b).mp hab) ((vble_iff b c).mp hbc))⟩
  have hs := List.sorted_insertionSort vble l
  unfold sortVariants
  exact List.Pairwise.imp (fun hab => (keyLe_iff_lex _ _).mpr ((vble_iff _ _).mp hab)) hs
